import Mathlib

/-!
Shallow embedding of `telepager` (src/telepager/manager.py) in Lean 4,
together with theorems settling the frozen claims about its specification.

The embedding follows the Python source of `manager.py` line by line.
Three small modules of the repository (`flag.py`, `structs.py`,
`settings.py`) are not present under `src/`; the few definitions taken
from them (`Line`, `Page`, the `ANY_QUALITY` / `ANY_ORDERING` sentinels,
and the validating flag constructor) are modelled from the spec and are
marked as such in their doc comments.

Python mutable state is made explicit: a `Fetcher` is a record of its
fields, every operation returns the updated record, and the lazy async
iterator is an explicit stream of pull results consumed at a cursor
position.  Exceptions are explicit outcomes (`FetchOutcome.raised` for an
uncaught exception propagating out of `fetch_more`).  The non-terminating
`fetch_all` loop is given fuel; running out of fuel is a distinct outcome,
so genuine non-termination is the statement that every fuel amount runs out.
-/

namespace Telepager

/-- Modelled from the spec: `structs.py` is not under `src/`.  A record
(`Line` in the source): display text, a quality bitmask, and an opaque
payload `meta` used only by user-supplied ordering. -/
structure Line (T : Type) where
  text : String
  quality : Nat
  meta : T
deriving DecidableEq, Repr

/-- Modelled from the spec: `structs.py` is not under `src/`.  A rendered
page; absence of a page is a distinct outcome (`Option Page` below).
A `Page` value itself is always truthy in Python (plain record), so the
`if page` filter in `build_page_book` drops exactly the `None` results. -/
structure Page where
  text : String
deriving DecidableEq, Repr

/-- Modelled from the spec: ordered sequence of pages. -/
abbrev PageBook := List Page

/-- One pull from the lazy source (`await self._iter.__anext__()`):
either the next item, the end-of-sequence signal (`StopAsyncIteration`),
the reentrancy violation (`RuntimeError`), or any other exception. -/
inductive PullResult (T : Type) where
  | item (e : Line T)
  | stopIteration
  | runtimeError
  | otherError
deriving DecidableEq, Repr

/-- State of `Fetcher[T]` (manager.py lines 10-18) plus the explicit
source model: `iter` is the stream of pull results and `iterPos` the
cursor of the next pull.  `incremental_fetching_step` is a Python `int`,
hence `Int`.  `_average_page_size` is initialised to `0` and only ever
assigned a floor division of list lengths, hence `Nat`. -/
@[ext]
structure Fetcher (T : Type) where
  lines : List (Line T)
  incremental_fetching_step : Int
  average_page_size : Nat
  iter : Nat → PullResult T
  iterPos : Nat
  iter_is_alive : Bool

/-- Whether a call returned normally or let an exception propagate. -/
inductive FetchOutcome where
  | normal
  | raised
deriving DecidableEq, Repr

/-- The `for _ in range(1, self.incremental_fetching_step)` loop body of
`fetch_more` (manager.py lines 25-32), with the remaining iteration count
made explicit.  Each iteration pulls once from the source: an item is
appended to `lines`; `StopAsyncIteration` or `RuntimeError` sets
`_iter_is_alive = False` and returns normally; any other exception
propagates (outcome `raised`) leaving the items appended so far in place. -/
def fetchLoop {T : Type} (f : Fetcher T) : Nat → Fetcher T × FetchOutcome
  | 0 => (f, .normal)
  | n + 1 =>
    match f.iter f.iterPos with
    | .item e =>
        fetchLoop { f with lines := f.lines ++ [e], iterPos := f.iterPos + 1 } n
    | .stopIteration =>
        ({ f with iterPos := f.iterPos + 1, iter_is_alive := false }, .normal)
    | .runtimeError =>
        ({ f with iterPos := f.iterPos + 1, iter_is_alive := false }, .normal)
    | .otherError =>
        ({ f with iterPos := f.iterPos + 1 }, .raised)

/-- `Fetcher.fetch_more` (manager.py lines 20-32).  Returns immediately if
the source is no longer alive; otherwise runs the batch loop.
`range(1, step)` has `(step - 1).toNat` iterations (empty when
`step ≤ 1`).  The `async with self._iter_lock` block is mutual exclusion
only; in this single-consumer model it is a no-op. -/
def fetch_more {T : Type} (f : Fetcher T) : Fetcher T × FetchOutcome :=
  if f.iter_is_alive then fetchLoop f (f.incremental_fetching_step - 1).toNat
  else (f, .normal)

/-- Result of a fuelled run of `fetch_all`: the loop exited because the
fetcher was exhausted (`done`), an exception propagated (`raised`), or the
fuel ran out with the fetcher still alive (`fuelOut`). -/
inductive FetchAllResult (T : Type) where
  | done (f : Fetcher T)
  | raised (f : Fetcher T)
  | fuelOut (f : Fetcher T)

/-- The fetcher state carried by a `FetchAllResult`. -/
def FetchAllResult.state {T : Type} : FetchAllResult T → Fetcher T
  | .done f => f
  | .raised f => f
  | .fuelOut f => f

/-- `Fetcher.fetch_all` (manager.py lines 34-36):
`while self._iter_is_alive: await self.fetch_more()`, with fuel bounding
the number of loop iterations. -/
def fetch_all {T : Type} : Fetcher T → Nat → FetchAllResult T
  | f, 0 => if f.iter_is_alive then .fuelOut f else .done f
  | f, n + 1 =>
    if f.iter_is_alive then
      match fetch_more f with
      | (f', .normal) => fetch_all f' n
      | (f', .raised) => .raised f'
    else .done f

/-- `Fetcher.fetched_pages` (manager.py lines 38-45): `None` when the
stored average is `0` (`if not self._average_page_size`), otherwise floor
division plus one when the remainder is nonzero. -/
def fetched_pages {T : Type} (f : Fetcher T) : Option Nat :=
  if f.average_page_size = 0 then none
  else some (f.lines.length / f.average_page_size +
    (if f.lines.length % f.average_page_size ≠ 0 then 1 else 0))

/-- `Fetcher.all_fetched` (manager.py lines 47-48). -/
def all_fetched {T : Type} (f : Fetcher T) : Bool :=
  ! f.iter_is_alive

/-- Modelled from the spec: `flag.py` is not under `src/`.  The reserved
sentinel values: bit values of real flags start at 2, reserving 0/1 for
the `ANY_QUALITY` / `ANY_ORDERING` sentinels. -/
def ANY_QUALITY : Nat := 0

/-- Modelled from the spec: `flag.py` is not under `src/`; see
`ANY_QUALITY`. -/
def ANY_ORDERING : Nat := 1

/-- Modelled from the spec: `flag.py` is not under `src/`.  A quality /
ordering flag type (`FLAG_T`): a Python `enum.IntFlag` with
`boundary=STRICT`, determined by the union of its members' bit values. -/
structure FlagType where
  memberMask : Nat
deriving DecidableEq

/-- Modelled from the spec: the validating constructor `quality_t(x)` of
an `IntFlag` with `boundary=STRICT` succeeds exactly when every set bit of
`x` is covered by a member, returning a flag whose integer value is `x`;
otherwise it raises `ValueError` (here: `none`). -/
def FlagType.construct (qt : FlagType) (x : Nat) : Option Nat :=
  if x &&& qt.memberMask = x then some x else none

/-- The per-record loop of `filter_lines_by_quality` (manager.py lines
57-68).  The first argument after `qt` is the current value of the
`asked_quality` variable, which the source rebinds to the constructed
flag on each successful construction. `asked_quality in quality_of_line`
is `IntFlag` containment: `quality_of_line &&& asked = asked`.  A
`ValueError` from either construction skips the record. -/
def filterLoop {T : Type} (qt : FlagType) :
    Nat → List (Line T) → List (Line T)
  | _, [] => []
  | asked, l :: ls =>
    match qt.construct l.quality with
    | none => filterLoop qt asked ls
    | some quality_of_line =>
      match qt.construct asked with
      | none => filterLoop qt asked ls
      | some asked' =>
        if quality_of_line &&& asked' = asked' then
          l :: filterLoop qt asked' ls
        else
          filterLoop qt asked' ls

/-- `filter_lines_by_quality` (manager.py lines 51-68): pass the input
list through unchanged when `asked_quality` is the `ANY_QUALITY` sentinel
or no flag type is supplied (note: the source returns the *same* list
object in that branch), otherwise run the filtering loop into a fresh
list. -/
def filter_lines_by_quality {T : Type} (lines : List (Line T))
    (asked_quality : Nat) (quality_t : Option FlagType := none) :
    List (Line T) :=
  if asked_quality = ANY_QUALITY ∨ quality_t = none then lines
  else
    match quality_t with
    | none => lines
    | some qt => filterLoop qt asked_quality lines

/-- The default `ABCPageBuilder.order_by` (manager.py lines 82-85):
always returns `NotImplemented`, modelled as `none` (distinct from every
`some orderedList`). -/
def defaultOrderBy (T : Type) :
    List (Line T) → Nat → Option (List (Line T)) :=
  fun _ _ => none

/-- A page builder (`ABCPageBuilder`), restricted to the capabilities that
`build_page_book` uses, with its methods as pure functions (this is the
interface the spec gives them): `build_page` returns `none` for "no page";
`order_by` returns `none` for `NotImplemented`.  The default `order_by`
is the base class's. -/
structure PageBuilder (T : Type) where
  build_page : List (Line T) → Option Page
  empty_page : Page
  order_by : List (Line T) → Nat → Option (List (Line T)) := defaultOrderBy T

/-- `RecordManager.build_page_book` (manager.py lines 142-166), with
Python list aliasing made explicit so that an `order_by` override that
mutates its argument in place is representable.

`order_by_mut l o = (l', r)` models calling `builder.order_by(l, o)` on a
list object whose content is `l`: after the call the content of that same
object is `l'` and the returned value is `r` (`none` = `NotImplemented`).

The aliasing fact from the source: `filter_lines_by_quality` returns the
fetcher's own `lines` list object exactly in the pass-through branch
(`asked_quality == ANY_QUALITY or quality_t is None`), and a fresh list
otherwise.  Hence the buffer content after the call is the mutated
content `l'` precisely when the pass-through branch was taken and
`order_by` was invoked (`asked_ordering != ANY_ORDERING`); in every other
case the buffer is untouched.  When `order_by` returned `NotImplemented`,
the local `filtered_lines` still refers to the (possibly mutated) same
object, so the effective list is `l'`; otherwise it is rebound to `r`.
The page sizer (`settings.page_sizer_factory()`) and `build_page` are the
pure external collaborators of the spec.  The non-`None` pages are kept;
if any page survives, `fetcher._average_page_size` is set to the floor
division of the effective list's length by the page count. -/
def build_page_book_mut {T : Type} (f : Fetcher T)
    (page_sizer : List (Line T) → List (List (Line T)))
    (asked_quality asked_ordering : Nat)
    (build_page : List (Line T) → Option Page)
    (order_by_mut : List (Line T) → Nat → List (Line T) × Option (List (Line T)))
    (quality_t : Option FlagType) : Fetcher T × PageBook :=
  let filtered := filter_lines_by_quality f.lines asked_quality quality_t
  if asked_ordering ≠ ANY_ORDERING then
    let mutRes := order_by_mut filtered asked_ordering
    let bufferAfter :=
      if asked_quality = ANY_QUALITY ∨ quality_t = none then mutRes.1
      else f.lines
    let effective :=
      match mutRes.2 with
      | some ordered => ordered
      | none => mutRes.1
    let page_book := ((page_sizer effective).map build_page).filterMap id
    ({ f with lines := bufferAfter,
              average_page_size :=
                if page_book.length ≠ 0 then
                  effective.length / page_book.length
                else f.average_page_size },
     page_book)
  else
    let page_book := ((page_sizer filtered).map build_page).filterMap id
    ({ f with average_page_size :=
                if page_book.length ≠ 0 then
                  filtered.length / page_book.length
                else f.average_page_size },
     page_book)

/-- `RecordManager.build_page_book` for a builder whose `order_by` does
not mutate its argument (the shape of `order_by` in the source's base
class and in the repository's example, which sorts a copy): the special
case of `build_page_book_mut` where the argument's content is unchanged. -/
def build_page_book {T : Type} (f : Fetcher T)
    (page_sizer : List (Line T) → List (List (Line T)))
    (asked_quality asked_ordering : Nat) (builder : PageBuilder T)
    (quality_t : Option FlagType) : Fetcher T × PageBook :=
  build_page_book_mut f page_sizer asked_quality asked_ordering
    builder.build_page (fun l o => (l, builder.order_by l o)) quality_t

/-- The list that `build_page_book`'s local `filtered_lines` holds after
steps 1-2 (filtering, then optional ordering) for a non-mutating builder. -/
def effective_lines {T : Type} (lines : List (Line T))
    (asked_quality asked_ordering : Nat) (builder : PageBuilder T)
    (quality_t : Option FlagType) : List (Line T) :=
  let filtered := filter_lines_by_quality lines asked_quality quality_t
  if asked_ordering ≠ ANY_ORDERING then
    match builder.order_by filtered asked_ordering with
    | some ordered => ordered
    | none => filtered
  else filtered

/-- One call a consumer can make on the fetcher / manager state.  A
`build_page_book` call carries the builder's methods in the aliasing-aware
form of `build_page_book_mut`, so sequences over builders whose
`order_by` mutates the list it receives are representable. -/
inductive Op (T : Type) where
  | fetchMoreOp
  | fetchAllOp (fuel : Nat)
  | buildPageBookOp (page_sizer : List (Line T) → List (List (Line T)))
      (asked_quality asked_ordering : Nat)
      (build_page : List (Line T) → Option Page)
      (order_by_mut :
        List (Line T) → Nat → List (Line T) × Option (List (Line T)))
      (quality_t : Option FlagType)

/-- The fetcher state after performing one call (discarding the returned
page book / outcome). -/
def applyOp {T : Type} (f : Fetcher T) : Op T → Fetcher T
  | .fetchMoreOp => (fetch_more f).1
  | .fetchAllOp fuel => (fetch_all f fuel).state
  | .buildPageBookOp page_sizer q o build_page order_by_mut qt =>
      (build_page_book_mut f page_sizer q o build_page order_by_mut qt).1

/-- The fetcher state after a sequence of calls. -/
def applyOps {T : Type} (f : Fetcher T) : List (Op T) → Fetcher T
  | [] => f
  | op :: ops => applyOps (applyOp f op) ops

/-- A call whose `order_by` (if any) leaves the content of the list it
receives unchanged — the shape of the base class's default and of the
repository example's copy-then-sort override. -/
def Op.nonMutating {T : Type} : Op T → Prop
  | .buildPageBookOp _ _ _ _ order_by_mut _ =>
      ∀ (l : List (Line T)) (o : Nat), (order_by_mut l o).1 = l
  | _ => True

/-- The record predicate the filtering loop implements: both
constructions succeed and the asked flag is contained in the record's
quality. -/
def lineMatches {T : Type} (qt : FlagType) (asked : Nat) (l : Line T) : Bool :=
  (qt.construct l.quality).isSome && (qt.construct asked).isSome &&
    (l.quality &&& asked == asked)

/-! ### Concrete instances used by witnesses and counterexamples -/

/-- A record carrying quality bit 2 (the example repo's `EVEN`). -/
def exLineEven : Line Unit := { text := "2", quality := 2, meta := () }

/-- A record carrying quality bit 4 (the example repo's `UNEVEN`). -/
def exLineOdd : Line Unit := { text := "1", quality := 4, meta := () }

/-- A flag type with members 2 and 4 (mask 6), like the example repo's
`Filters`. -/
def exFlag : FlagType := { memberMask := 6 }

/-- A builder producing one fixed page per non-empty chunk. -/
def exBuilder : PageBuilder Unit :=
  { build_page := fun ls => if ls.isEmpty then none else some { text := "p" },
    empty_page := { text := "e" } }

/-- A sizing strategy putting everything in one chunk. -/
def exSizer : List (Line Unit) → List (List (Line Unit)) := fun ls => [ls]

/-- A sizing strategy producing no chunks at all. -/
def exSizerEmpty : List (Line Unit) → List (List (Line Unit)) := fun _ => []

/-- A source yielding five records and then end-of-sequence. -/
def exIter : Nat → PullResult Unit :=
  fun n => if n < 5 then .item exLineEven else .stopIteration

/-- A source yielding one record, then end-of-sequence. -/
def exIterStop : Nat → PullResult Unit :=
  fun n => if n = 0 then .item exLineEven else .stopIteration

/-- A source yielding one record, then an unrelated exception. -/
def exIterErr : Nat → PullResult Unit :=
  fun n => if n = 0 then .item exLineEven else .otherError

/-- A live fetcher with batch bound 3 over `exIter`. -/
def exFetcher : Fetcher Unit :=
  { lines := [], incremental_fetching_step := 3, average_page_size := 0,
    iter := exIter, iterPos := 0, iter_is_alive := true }

/-- A live fetcher with two buffered records. -/
def exFetcherB : Fetcher Unit :=
  { lines := [exLineEven, exLineOdd], incremental_fetching_step := 3,
    average_page_size := 0, iter := exIter, iterPos := 0,
    iter_is_alive := true }

/-- An exhausted fetcher. -/
def exFetcherDead : Fetcher Unit :=
  { lines := [exLineEven], incremental_fetching_step := 3,
    average_page_size := 0, iter := fun _ => .stopIteration, iterPos := 0,
    iter_is_alive := false }

/-- A live fetcher over `exIterStop`. -/
def exFetcherStop : Fetcher Unit :=
  { lines := [], incremental_fetching_step := 3, average_page_size := 0,
    iter := exIterStop, iterPos := 0, iter_is_alive := true }

/-- A live fetcher over `exIterErr`. -/
def exFetcherErr : Fetcher Unit :=
  { lines := [], incremental_fetching_step := 3, average_page_size := 0,
    iter := exIterErr, iterPos := 0, iter_is_alive := true }

/-- A live fetcher with batch bound 1. -/
def exFetcherSmall : Fetcher Unit :=
  { lines := [], incremental_fetching_step := 1, average_page_size := 0,
    iter := exIter, iterPos := 0, iter_is_alive := true }

/-- An `order_by` override that sorts/mutates its argument in place
(returns the mutated object itself), like `list.sort` would. -/
def exMutOrder :
    List (Line Unit) → Nat → List (Line Unit) × Option (List (Line Unit)) :=
  fun l _ => (l.reverse, some l.reverse)

/-- An `order_by` override that orders into a fresh list, leaving its
argument unchanged (the repository example's `SortingPageBuilder` shape). -/
def exPureOrder :
    List (Line Unit) → Nat → List (Line Unit) × Option (List (Line Unit)) :=
  fun l _ => (l, some l.reverse)

/-- `build_page` as a bare function, for use with `build_page_book_mut`. -/
def exBuildPage : List (Line Unit) → Option Page :=
  fun ls => if ls.isEmpty then none else some { text := "p" }

/-! ### Helper lemmas about the fetch loop -/

/-- Whatever the source does, the fetch loop only ever appends to `lines`. -/
theorem fetchLoop_lines_extend {T : Type} (n : Nat) :
    ∀ f : Fetcher T, f.lines <+: (fetchLoop f n).1.lines := by
  induction n with
  | zero => intro f; exact List.prefix_rfl
  | succ n ih =>
    intro f
    unfold fetchLoop
    cases h : f.iter f.iterPos with
    | item e =>
      exact List.IsPrefix.trans (List.prefix_append _ _)
        (ih { f with lines := f.lines ++ [e], iterPos := f.iterPos + 1 })
    | stopIteration => exact List.prefix_rfl
    | runtimeError => exact List.prefix_rfl
    | otherError => exact List.prefix_rfl

/-- The fetch loop appends at most one item per iteration. -/
theorem fetchLoop_length_le {T : Type} (n : Nat) :
    ∀ f : Fetcher T, (fetchLoop f n).1.lines.length ≤ f.lines.length + n := by
  induction n with
  | zero => intro f; simp [fetchLoop]
  | succ n ih =>
    intro f
    unfold fetchLoop
    cases h : f.iter f.iterPos with
    | item e =>
      show (fetchLoop { f with lines := f.lines ++ [e], iterPos := f.iterPos + 1 }
        n).1.lines.length ≤ f.lines.length + (n + 1)
      have hih := ih { f with lines := f.lines ++ [e], iterPos := f.iterPos + 1 }
      simp only [List.length_append, List.length_singleton] at hih
      omega
    | stopIteration => simp
    | runtimeError => simp
    | otherError => simp

/-- The fetch loop never resurrects an exhausted source: if the result is
alive then so was the input. -/
theorem fetchLoop_alive_mono {T : Type} (n : Nat) :
    ∀ f : Fetcher T, (fetchLoop f n).1.iter_is_alive = true →
      f.iter_is_alive = true := by
  induction n with
  | zero => intro f h; exact h
  | succ n ih =>
    intro f
    unfold fetchLoop
    cases h : f.iter f.iterPos with
    | item e =>
      exact fun hh =>
        ih { f with lines := f.lines ++ [e], iterPos := f.iterPos + 1 } hh
    | stopIteration => intro hh; exact absurd hh (by simp)
    | runtimeError => intro hh; exact absurd hh (by simp)
    | otherError => exact fun hh => hh

/-- When the next `n` pulls all yield items, the fetch loop appends those
`n` items in order, advances the cursor by `n`, and returns normally. -/
theorem fetchLoop_items {T : Type} (n : Nat) :
    ∀ (f : Fetcher T) (es : Nat → Line T),
      (∀ i, i < n → f.iter (f.iterPos + i) = .item (es i)) →
      fetchLoop f n =
        ({ f with lines := f.lines ++ (List.range n).map es,
                  iterPos := f.iterPos + n }, .normal) := by
  induction n with
  | zero => intro f es _; simp [fetchLoop]
  | succ n ih =>
    intro f es h
    have h0 : f.iter f.iterPos = .item (es 0) := by
      simpa using h 0 (Nat.succ_pos n)
    unfold fetchLoop
    simp only [h0]
    rw [ih { f with lines := f.lines ++ [es 0], iterPos := f.iterPos + 1 }
      (fun i => es (i + 1)) (fun i hi => by
        simpa [Nat.add_assoc, Nat.add_comm 1 i] using h (i + 1) (by omega))]
    simp only [Prod.mk.injEq, and_true]
    refine Fetcher.ext ?_ rfl rfl rfl ?_ rfl
    · show (f.lines ++ [es 0]) ++ List.map (fun i => es (i + 1)) (List.range n)
        = f.lines ++ List.map es (List.range (n + 1))
      simp [List.range_succ_eq_map, List.map_map, Function.comp,
        Nat.succ_eq_add_one]
    · show f.iterPos + 1 + n = f.iterPos + (n + 1)
      omega

/-- When the first `k` pulls yield items and pull `k` (still inside the
batch window) raises `StopAsyncIteration` or `RuntimeError`, the loop
keeps the `k` items already appended, marks the fetcher dead, and returns
normally. -/
theorem fetchLoop_exhaust {T : Type} (k : Nat) :
    ∀ (n : Nat) (f : Fetcher T) (es : Nat → Line T), k < n →
      (∀ i, i < k → f.iter (f.iterPos + i) = .item (es i)) →
      (f.iter (f.iterPos + k) = .stopIteration ∨
        f.iter (f.iterPos + k) = .runtimeError) →
      fetchLoop f n =
        ({ f with lines := f.lines ++ (List.range k).map es,
                  iterPos := f.iterPos + k + 1,
                  iter_is_alive := false }, .normal) := by
  induction k with
  | zero =>
    intro n f es hk _ hsig
    obtain ⟨m, rfl⟩ : ∃ m, n = m + 1 := ⟨n - 1, by omega⟩
    have hsig' : f.iter f.iterPos = PullResult.stopIteration ∨
        f.iter f.iterPos = PullResult.runtimeError := by simpa using hsig
    unfold fetchLoop
    rcases hsig' with hs | hs <;> simp [hs]
  | succ k ih =>
    intro n f es hk h hsig
    obtain ⟨m, rfl⟩ : ∃ m, n = m + 1 := ⟨n - 1, by omega⟩
    have h0 : f.iter f.iterPos = .item (es 0) := by
      simpa using h 0 (Nat.succ_pos k)
    unfold fetchLoop
    simp only [h0]
    rw [ih m { f with lines := f.lines ++ [es 0], iterPos := f.iterPos + 1 }
      (fun i => es (i + 1)) (by omega)
      (fun i hi => by
        simpa [Nat.add_assoc, Nat.add_comm 1 i] using h (i + 1) (by omega))
      (by simpa [Nat.add_assoc, Nat.add_comm 1 k] using hsig)]
    simp only [Prod.mk.injEq, and_true]
    refine Fetcher.ext ?_ rfl rfl rfl ?_ rfl
    · show (f.lines ++ [es 0]) ++ List.map (fun i => es (i + 1)) (List.range k)
        = f.lines ++ List.map es (List.range (k + 1))
      simp [List.range_succ_eq_map, List.map_map, Function.comp,
        Nat.succ_eq_add_one]
    · show f.iterPos + 1 + k + 1 = f.iterPos + (k + 1) + 1
      omega

/-- When the first `k` pulls yield items and pull `k` (still inside the
batch window) raises any other exception, the loop keeps the `k` items
already appended, leaves the alive flag untouched, and the exception
propagates. -/
theorem fetchLoop_raise {T : Type} (k : Nat) :
    ∀ (n : Nat) (f : Fetcher T) (es : Nat → Line T), k < n →
      (∀ i, i < k → f.iter (f.iterPos + i) = .item (es i)) →
      f.iter (f.iterPos + k) = .otherError →
      fetchLoop f n =
        ({ f with lines := f.lines ++ (List.range k).map es,
                  iterPos := f.iterPos + k + 1 }, .raised) := by
  induction k with
  | zero =>
    intro n f es hk _ hsig
    obtain ⟨m, rfl⟩ : ∃ m, n = m + 1 := ⟨n - 1, by omega⟩
    have hsig' : f.iter f.iterPos = PullResult.otherError := by simpa using hsig
    unfold fetchLoop
    simp [hsig']
  | succ k ih =>
    intro n f es hk h hsig
    obtain ⟨m, rfl⟩ : ∃ m, n = m + 1 := ⟨n - 1, by omega⟩
    have h0 : f.iter f.iterPos = .item (es 0) := by
      simpa using h 0 (Nat.succ_pos k)
    unfold fetchLoop
    simp only [h0]
    rw [ih m { f with lines := f.lines ++ [es 0], iterPos := f.iterPos + 1 }
      (fun i => es (i + 1)) (by omega)
      (fun i hi => by
        simpa [Nat.add_assoc, Nat.add_comm 1 i] using h (i + 1) (by omega))
      (by simpa [Nat.add_assoc, Nat.add_comm 1 k] using hsig)]
    simp only [Prod.mk.injEq, and_true]
    refine Fetcher.ext ?_ rfl rfl rfl ?_ rfl
    · show (f.lines ++ [es 0]) ++ List.map (fun i => es (i + 1)) (List.range k)
        = f.lines ++ List.map es (List.range (k + 1))
      simp [List.range_succ_eq_map, List.map_map, Function.comp,
        Nat.succ_eq_add_one]
    · show f.iterPos + 1 + k + 1 = f.iterPos + (k + 1) + 1
      omega

/-! ### Helper lemmas about fetch_more and fetch_all -/

/-- `fetch_more` on an exhausted fetcher is a no-op that returns normally. -/
theorem fetch_more_not_alive {T : Type} (f : Fetcher T)
    (h : f.iter_is_alive = false) : fetch_more f = (f, .normal) := by
  unfold fetch_more
  rw [if_neg (by simp [h])]

/-- `fetch_more` only ever appends to `lines`. -/
theorem fetch_more_lines_extend {T : Type} (f : Fetcher T) :
    f.lines <+: (fetch_more f).1.lines := by
  unfold fetch_more
  split
  · exact fetchLoop_lines_extend _ f
  · exact List.prefix_rfl

/-- `fetch_more` never resurrects an exhausted fetcher. -/
theorem fetch_more_alive_mono {T : Type} (f : Fetcher T)
    (h : f.iter_is_alive = false) : (fetch_more f).1.iter_is_alive = false := by
  rw [fetch_more_not_alive f h]
  exact h

/-- `fetch_more` appends at most `(step - 1).toNat` items. -/
theorem fetch_more_length_le {T : Type} (f : Fetcher T) :
    (fetch_more f).1.lines.length ≤
      f.lines.length + (f.incremental_fetching_step - 1).toNat := by
  unfold fetch_more
  split
  · exact fetchLoop_length_le _ f
  · simp

/-- A `fetch_all` run on an exhausted fetcher stops at once. -/
theorem fetch_all_not_alive {T : Type} (fuel : Nat) (f : Fetcher T)
    (h : f.iter_is_alive = false) : fetch_all f fuel = .done f := by
  cases fuel <;> simp [fetch_all, h]

/-- The fetcher a `fetch_all` run ends with only ever extends `lines`. -/
theorem fetch_all_lines_extend {T : Type} (fuel : Nat) :
    ∀ f : Fetcher T, f.lines <+: (fetch_all f fuel).state.lines := by
  induction fuel with
  | zero =>
    intro f
    unfold fetch_all
    split <;> exact List.prefix_rfl
  | succ n ih =>
    intro f
    unfold fetch_all
    split
    · split
      · rename_i f' heq
        have hp := fetch_more_lines_extend f
        rw [heq] at hp
        exact hp.trans (ih f')
      · rename_i f' heq
        have hp := fetch_more_lines_extend f
        rw [heq] at hp
        exact hp
    · exact List.prefix_rfl

/-- `fetch_all` never resurrects an exhausted fetcher. -/
theorem fetch_all_alive_mono {T : Type} (fuel : Nat) (f : Fetcher T)
    (h : f.iter_is_alive = false) :
    (fetch_all f fuel).state.iter_is_alive = false := by
  rw [fetch_all_not_alive fuel f h]
  exact h

/-! ### Helper lemmas about the quality filter -/

/-- The validating constructor succeeds exactly on values covered by the
member mask, and then returns the value itself. -/
theorem FlagType.construct_eq_some {qt : FlagType} {x y : Nat} :
    qt.construct x = some y ↔ (x &&& qt.memberMask = x ∧ y = x) := by
  unfold FlagType.construct
  split
  · rename_i hx
    simp [hx, eq_comm]
  · rename_i hx
    simp [hx]

/-- Successful construction is idempotent on the constructed value. -/
theorem FlagType.construct_self {qt : FlagType} {x y : Nat}
    (h : qt.construct x = some y) : qt.construct y = some y := by
  rcases FlagType.construct_eq_some.mp h with ⟨hx, rfl⟩
  exact h

/-- The filtering loop is `List.filter` with the `lineMatches` predicate:
the rebinding of `asked_quality` inside the source's loop has no
observable effect because the constructor returns its argument. -/
theorem filterLoop_eq_filter {T : Type} (qt : FlagType) (asked : Nat)
    (lines : List (Line T)) :
    filterLoop qt asked lines = lines.filter (lineMatches qt asked) := by
  induction lines with
  | nil => simp [filterLoop]
  | cons l ls ih =>
    unfold filterLoop
    cases h1 : qt.construct l.quality with
    | none =>
      rw [ih]
      have : lineMatches qt asked l = false := by
        simp [lineMatches, h1]
      simp [List.filter_cons, this]
    | some quality_of_line =>
      cases h2 : qt.construct asked with
      | none =>
        rw [ih]
        have : lineMatches qt asked l = false := by
          simp [lineMatches, h2]
        simp [List.filter_cons, this]
      | some asked' =>
        have ha : asked' = asked := (FlagType.construct_eq_some.mp h2).2
        have hq : quality_of_line = l.quality :=
          (FlagType.construct_eq_some.mp h1).2
        show (if quality_of_line &&& asked' = asked' then
            l :: filterLoop qt asked' ls else filterLoop qt asked' ls)
          = List.filter (lineMatches qt asked) (l :: ls)
        rw [ha, hq, ih]
        by_cases hc : l.quality &&& asked = asked
        · rw [if_pos hc]
          have : lineMatches qt asked l = true := by
            simp [lineMatches, h1, h2, hc]
          simp [List.filter_cons, this]
        · rw [if_neg hc]
          have : lineMatches qt asked l = false := by
            simp [lineMatches, h1, h2, hc]
          simp [List.filter_cons, this]

/-- With a real quality and a supplied flag type, the filter is
`List.filter` with `lineMatches`. -/
theorem filter_lines_by_quality_eq_filter {T : Type} (lines : List (Line T))
    (asked : Nat) (qt : FlagType) (hX : asked ≠ ANY_QUALITY) :
    filter_lines_by_quality lines asked (some qt) =
      lines.filter (lineMatches qt asked) := by
  unfold filter_lines_by_quality
  rw [if_neg (by simp [hX])]
  exact filterLoop_eq_filter qt asked lines

/-! ### Helper lemmas about build_page_book -/

/-- `build_page_book` with a (non-mutating) `PageBuilder` in one equation:
the returned book is the non-`None` pages built from the sized chunks of
`effective_lines`, and the only state change is the average-page-size
update when the book is non-empty. -/
theorem build_page_book_eq {T : Type} (f : Fetcher T)
    (page_sizer : List (Line T) → List (List (Line T)))
    (asked_quality asked_ordering : Nat) (builder : PageBuilder T)
    (quality_t : Option FlagType) :
    build_page_book f page_sizer asked_quality asked_ordering builder
        quality_t =
      ({ f with average_page_size :=
           if (((page_sizer (effective_lines f.lines asked_quality
                   asked_ordering builder quality_t)).map
                 builder.build_page).filterMap id).length ≠ 0 then
             (effective_lines f.lines asked_quality asked_ordering builder
                 quality_t).length /
               (((page_sizer (effective_lines f.lines asked_quality
                   asked_ordering builder quality_t)).map
                 builder.build_page).filterMap id).length
           else f.average_page_size },
       ((page_sizer (effective_lines f.lines asked_quality asked_ordering
           builder quality_t)).map builder.build_page).filterMap id) := by
  unfold build_page_book build_page_book_mut effective_lines
  by_cases ho : asked_ordering ≠ ANY_ORDERING
  · simp only [if_pos ho]
    by_cases hq : asked_quality = ANY_QUALITY ∨ quality_t = none
    · have hfil : filter_lines_by_quality f.lines asked_quality quality_t
          = f.lines := by
        unfold filter_lines_by_quality
        exact if_pos hq
      simp only [if_pos hq, hfil]
    · simp only [if_neg hq]
  · simp only [if_neg ho]

/-- `build_page_book` (even with a mutating `order_by`) never touches the
alive flag: it only updates `lines` and the stored average. -/
theorem build_page_book_mut_alive {T : Type} (f : Fetcher T)
    (page_sizer : List (Line T) → List (List (Line T)))
    (asked_quality asked_ordering : Nat)
    (build_page : List (Line T) → Option Page)
    (order_by_mut :
      List (Line T) → Nat → List (Line T) × Option (List (Line T)))
    (quality_t : Option FlagType) :
    (build_page_book_mut f page_sizer asked_quality asked_ordering
        build_page order_by_mut quality_t).1.iter_is_alive
      = f.iter_is_alive := by
  unfold build_page_book_mut
  split <;> rfl

/-- When `order_by` leaves the content of its argument unchanged,
`build_page_book` leaves the records buffer exactly as it was. -/
theorem build_page_book_mut_lines_nonmut {T : Type} (f : Fetcher T)
    (page_sizer : List (Line T) → List (List (Line T)))
    (asked_quality asked_ordering : Nat)
    (build_page : List (Line T) → Option Page)
    (order_by_mut :
      List (Line T) → Nat → List (Line T) × Option (List (Line T)))
    (quality_t : Option FlagType)
    (hob : ∀ (l : List (Line T)) (o : Nat), (order_by_mut l o).1 = l) :
    (build_page_book_mut f page_sizer asked_quality asked_ordering
        build_page order_by_mut quality_t).1.lines = f.lines := by
  unfold build_page_book_mut
  by_cases ho : asked_ordering ≠ ANY_ORDERING
  · simp only [if_pos ho, hob]
    by_cases hq : asked_quality = ANY_QUALITY ∨ quality_t = none
    · simp only [if_pos hq]
      show filter_lines_by_quality f.lines asked_quality quality_t = f.lines
      unfold filter_lines_by_quality
      exact if_pos hq
    · simp only [if_neg hq]
  · simp only [if_neg ho]

/-- `lineMatches` holds exactly when both constructions succeed and the
constructed asked value is contained in the constructed record quality. -/
theorem lineMatches_iff {T : Type} (qt : FlagType) (asked : Nat)
    (l : Line T) :
    lineMatches qt asked l = true ↔
      ∃ a q, qt.construct asked = some a ∧ qt.construct l.quality = some q ∧
        q &&& a = a := by
  unfold lineMatches
  constructor
  · intro h
    simp only [Bool.and_eq_true, beq_iff_eq, Option.isSome_iff_exists] at h
    obtain ⟨⟨⟨q, hq⟩, ⟨a, ha⟩⟩, hc⟩ := h
    refine ⟨a, q, ha, hq, ?_⟩
    have haa : a = asked := (FlagType.construct_eq_some.mp ha).2
    have hqq : q = l.quality := (FlagType.construct_eq_some.mp hq).2
    rw [haa, hqq]
    exact hc
  · rintro ⟨a, q, ha, hq, hc⟩
    have haa : a = asked := (FlagType.construct_eq_some.mp ha).2
    have hqq : q = l.quality := (FlagType.construct_eq_some.mp hq).2
    rw [haa, hqq] at hc
    simp [ha, hq, hc]

/-! ### Claim theorems -/

/-- C2: with a real asked quality and a supplied flag type, a record of
the input appears in the filter output iff the validating constructor
succeeds on the asked value and on the record's quality and the
constructed asked value is bitwise contained in the constructed quality;
records with a failing construction are excluded without an error, and
the output is a sublist of the input (relative order preserved). -/
theorem c2_filter_correctness {T : Type} (lines : List (Line T))
    (asked : Nat) (qt : FlagType) (R : Line T)
    (hX : asked ≠ ANY_QUALITY) (hR : R ∈ lines) :
    (R ∈ filter_lines_by_quality lines asked (some qt) ↔
      ∃ a q, qt.construct asked = some a ∧ qt.construct R.quality = some q ∧
        q &&& a = a) ∧
    (filter_lines_by_quality lines asked (some qt)).Sublist lines := by
  rw [filter_lines_by_quality_eq_filter lines asked qt hX]
  constructor
  · rw [List.mem_filter]
    simp [hR, lineMatches_iff]
  · exact List.filter_sublist lines

/-- Witness for C2 at a concrete input. -/
theorem c2_filter_correctness_witness :
    ((exLineEven ∈ filter_lines_by_quality [exLineEven, exLineOdd] 2
        (some exFlag) ↔
      ∃ a q, exFlag.construct 2 = some a ∧
        exFlag.construct exLineEven.quality = some q ∧ q &&& a = a) ∧
     (filter_lines_by_quality [exLineEven, exLineOdd] 2
        (some exFlag)).Sublist [exLineEven, exLineOdd]) :=
  c2_filter_correctness [exLineEven, exLineOdd] 2 exFlag exLineEven
    (by decide) (by decide)

/-- C6: filtering with the `ANY_QUALITY` sentinel, or with no flag type
supplied, returns exactly the input list. -/
theorem c6_pass_through {T : Type} (lines : List (Line T)) (asked : Nat)
    (quality_t : Option FlagType)
    (h : asked = ANY_QUALITY ∨ quality_t = none) :
    filter_lines_by_quality lines asked quality_t = lines := by
  unfold filter_lines_by_quality
  exact if_pos h

/-- Witness for C6 at a concrete input. -/
theorem c6_pass_through_witness :
    filter_lines_by_quality [exLineEven, exLineOdd] ANY_QUALITY
      (some exFlag) = [exLineEven, exLineOdd] :=
  c6_pass_through [exLineEven, exLineOdd] ANY_QUALITY (some exFlag)
    (Or.inl rfl)

/-- C1: after `build_page_book`, if the resulting page book (after
dropping absent pages) is empty the stored average page size is
unchanged; if it has at least one page the stored average equals the
length of the filtered (and possibly reordered) record list floor-divided
by the number of pages. -/
theorem c1_average_feedback {T : Type} (f : Fetcher T)
    (page_sizer : List (Line T) → List (List (Line T)))
    (asked_quality asked_ordering : Nat) (builder : PageBuilder T)
    (quality_t : Option FlagType) :
    ((build_page_book f page_sizer asked_quality asked_ordering builder
        quality_t).2 = [] →
      (build_page_book f page_sizer asked_quality asked_ordering builder
        quality_t).1.average_page_size = f.average_page_size) ∧
    (1 ≤ (build_page_book f page_sizer asked_quality asked_ordering builder
        quality_t).2.length →
      (build_page_book f page_sizer asked_quality asked_ordering builder
          quality_t).1.average_page_size =
        (effective_lines f.lines asked_quality asked_ordering builder
            quality_t).length /
          (build_page_book f page_sizer asked_quality asked_ordering builder
            quality_t).2.length) := by
  simp only [build_page_book_eq]
  constructor
  · intro h
    rw [h]
    simp
  · intro h
    rw [if_pos (by omega)]

/-- Witness for C1: one call producing an empty book leaves the average
unchanged, one producing a non-empty book stores the floor division. -/
theorem c1_average_feedback_witness :
    ((build_page_book exFetcherB exSizerEmpty 0 1 exBuilder
        none).1.average_page_size = exFetcherB.average_page_size) ∧
    ((build_page_book exFetcherB exSizer 0 1 exBuilder
          none).1.average_page_size =
      (effective_lines exFetcherB.lines 0 1 exBuilder none).length /
        (build_page_book exFetcherB exSizer 0 1 exBuilder none).2.length) :=
  ⟨(c1_average_feedback exFetcherB exSizerEmpty 0 1 exBuilder none).1
      (by decide),
   (c1_average_feedback exFetcherB exSizer 0 1 exBuilder none).2
      (by decide)⟩

/-- C8: the base builder's default `order_by` returns the unsupported
marker at the orchestrator's call site, and for a builder that does not
override it a non-`ANY_ORDERING` request leaves the filtered order
exactly as the filter produced it, so the book is built from the plain
filter output. -/
theorem c8_ordering_sentinel {T : Type} (f : Fetcher T)
    (page_sizer : List (Line T) → List (List (Line T)))
    (asked_quality asked_ordering : Nat) (builder : PageBuilder T)
    (quality_t : Option FlagType)
    (hdef : builder.order_by = defaultOrderBy T)
    (ho : asked_ordering ≠ ANY_ORDERING) :
    defaultOrderBy T
        (filter_lines_by_quality f.lines asked_quality quality_t)
        asked_ordering = none ∧
    effective_lines f.lines asked_quality asked_ordering builder quality_t =
      filter_lines_by_quality f.lines asked_quality quality_t ∧
    (build_page_book f page_sizer asked_quality asked_ordering builder
        quality_t).2 =
      ((page_sizer (filter_lines_by_quality f.lines asked_quality
          quality_t)).map builder.build_page).filterMap id := by
  have heff : effective_lines f.lines asked_quality asked_ordering builder
      quality_t = filter_lines_by_quality f.lines asked_quality quality_t := by
    unfold effective_lines
    rw [if_pos ho, hdef]
    rfl
  refine ⟨rfl, heff, ?_⟩
  rw [build_page_book_eq]
  rw [heff]

/-- Witness for C8 at a concrete input. -/
theorem c8_ordering_sentinel_witness :
    (defaultOrderBy Unit
        (filter_lines_by_quality exFetcherB.lines 2 (some exFlag)) 2
      = none) ∧
    (effective_lines exFetcherB.lines 2 2 exBuilder (some exFlag) =
      filter_lines_by_quality exFetcherB.lines 2 (some exFlag)) ∧
    ((build_page_book exFetcherB exSizer 2 2 exBuilder (some exFlag)).2 =
      ((exSizer (filter_lines_by_quality exFetcherB.lines 2
          (some exFlag))).map exBuilder.build_page).filterMap id) :=
  c8_ordering_sentinel exFetcherB exSizer 2 2 exBuilder (some exFlag)
    rfl (by decide)

/-- C3: a live fetcher whose source still has at least
`incremental_fetching_step` items pending gains exactly
`incremental_fetching_step - 1` records from one `fetch_more` call, and
in any case the call appends no more than the configured bound. -/
theorem c3_batch_bound {T : Type} (f : Fetcher T) (es : Nat → Line T)
    (halive : f.iter_is_alive = true)
    (hitems : ∀ i, i < f.incremental_fetching_step.toNat →
      f.iter (f.iterPos + i) = .item (es i)) :
    (fetch_more f).1.lines.length =
      f.lines.length + (f.incremental_fetching_step - 1).toNat ∧
    (fetch_more f).1.lines.length ≤
      f.lines.length + f.incremental_fetching_step.toNat := by
  have hlen : (fetch_more f).1.lines.length =
      f.lines.length + (f.incremental_fetching_step - 1).toNat := by
    unfold fetch_more
    rw [if_pos halive]
    rw [fetchLoop_items _ f es (fun i hi => hitems i (by omega))]
    simp
  exact ⟨hlen, by rw [hlen]; omega⟩

/-- Witness for C3: batch bound 3 pulls exactly 2 records. -/
theorem c3_batch_bound_witness :
    ((fetch_more exFetcher).1.lines.length =
      exFetcher.lines.length +
        (exFetcher.incremental_fetching_step - 1).toNat) ∧
    ((fetch_more exFetcher).1.lines.length ≤
      exFetcher.lines.length + exFetcher.incremental_fetching_step.toNat) :=
  c3_batch_bound exFetcher (fun _ => exLineEven) rfl (by decide)

/-- C5: inside the batch loop, once `k` items have been pulled, an
end-of-sequence or reentrancy signal at the next pull keeps the `k`
appended items, sets the alive flag to false, and the call returns
normally; any other exception propagates out of the call with the alive
flag untouched and the `k` appended items kept. -/
theorem c5_error_handling {T : Type} (f : Fetcher T) (es : Nat → Line T)
    (k : Nat) (halive : f.iter_is_alive = true)
    (hk : k < (f.incremental_fetching_step - 1).toNat)
    (hitems : ∀ i, i < k → f.iter (f.iterPos + i) = .item (es i)) :
    ((f.iter (f.iterPos + k) = .stopIteration ∨
        f.iter (f.iterPos + k) = .runtimeError) →
      fetch_more f =
        ({ f with lines := f.lines ++ (List.range k).map es,
                  iterPos := f.iterPos + k + 1,
                  iter_is_alive := false }, .normal)) ∧
    (f.iter (f.iterPos + k) = .otherError →
      fetch_more f =
        ({ f with lines := f.lines ++ (List.range k).map es,
                  iterPos := f.iterPos + k + 1 }, .raised)) := by
  constructor
  · intro hsig
    unfold fetch_more
    rw [if_pos halive]
    exact fetchLoop_exhaust k _ f es hk hitems hsig
  · intro hsig
    unfold fetch_more
    rw [if_pos halive]
    exact fetchLoop_raise k _ f es hk hitems hsig

/-- Witness for C5: a source exhausting after one item, and a source
failing after one item. -/
theorem c5_error_handling_witness :
    (fetch_more exFetcherStop =
      ({ exFetcherStop with
          lines := exFetcherStop.lines ++ (List.range 1).map
            (fun _ => exLineEven),
          iterPos := exFetcherStop.iterPos + 1 + 1,
          iter_is_alive := false }, .normal)) ∧
    (fetch_more exFetcherErr =
      ({ exFetcherErr with
          lines := exFetcherErr.lines ++ (List.range 1).map
            (fun _ => exLineEven),
          iterPos := exFetcherErr.iterPos + 1 + 1 }, .raised)) :=
  ⟨(c5_error_handling exFetcherStop (fun _ => exLineEven) 1 rfl
      (by decide) (by decide)).1 (Or.inl (by decide)),
   (c5_error_handling exFetcherErr (fun _ => exLineEven) 1 rfl
      (by decide) (by decide)).2 (by decide)⟩

/-- C10: with a batch bound of at most 1 over a live source, `fetch_more`
is the identity (no records appended, the cursor not advanced, the alive
flag still true, no exception), and a `fetch_all` run exhausts any amount
of fuel without terminating. -/
theorem c10_nontermination {T : Type} (f : Fetcher T) (fuel : Nat)
    (hstep : f.incremental_fetching_step ≤ 1)
    (halive : f.iter_is_alive = true) :
    fetch_more f = (f, .normal) ∧ fetch_all f fuel = .fuelOut f := by
  have hm : fetch_more f = (f, .normal) := by
    unfold fetch_more
    rw [if_pos halive]
    have h0 : (f.incremental_fetching_step - 1).toNat = 0 := by omega
    rw [h0]
    rfl
  refine ⟨hm, ?_⟩
  induction fuel with
  | zero =>
    unfold fetch_all
    rw [if_pos halive]
  | succ n ih =>
    unfold fetch_all
    rw [if_pos halive, hm]
    exact ih

/-- Witness for C10: a bound-1 fetcher spins through 7 units of fuel. -/
theorem c10_nontermination_witness :
    fetch_more exFetcherSmall = (exFetcherSmall, .normal) ∧
    fetch_all exFetcherSmall 7 = .fuelOut exFetcherSmall :=
  c10_nontermination exFetcherSmall 7 (by decide) rfl

/-- A single call preserves an already-false alive flag, whatever the
builder does. -/
theorem applyOp_alive_mono {T : Type} (f : Fetcher T) (op : Op T)
    (h : f.iter_is_alive = false) : (applyOp f op).iter_is_alive = false := by
  cases op with
  | fetchMoreOp => exact fetch_more_alive_mono f h
  | fetchAllOp fuel => exact fetch_all_alive_mono fuel f h
  | buildPageBookOp page_sizer q o build_page order_by_mut qt =>
    show (build_page_book_mut f page_sizer q o build_page order_by_mut
        qt).1.iter_is_alive = false
    rw [build_page_book_mut_alive f page_sizer q o build_page order_by_mut qt]
    exact h

/-- A single non-mutating call only ever extends the records buffer. -/
theorem applyOp_lines_extend {T : Type} (f : Fetcher T) (op : Op T)
    (hnm : op.nonMutating) : f.lines <+: (applyOp f op).lines := by
  cases op with
  | fetchMoreOp => exact fetch_more_lines_extend f
  | fetchAllOp fuel => exact fetch_all_lines_extend fuel f
  | buildPageBookOp page_sizer q o build_page order_by_mut qt =>
    show f.lines <+:
      (build_page_book_mut f page_sizer q o build_page order_by_mut qt).1.lines
    rw [build_page_book_mut_lines_nonmut f page_sizer q o build_page
      order_by_mut qt hnm]

/-- A call sequence preserves an already-false alive flag. -/
theorem applyOps_alive_mono {T : Type} (ops : List (Op T)) :
    ∀ f : Fetcher T, f.iter_is_alive = false →
      (applyOps f ops).iter_is_alive = false := by
  induction ops with
  | nil => exact fun f h => h
  | cons op ops ih =>
    exact fun f h => ih (applyOp f op) (applyOp_alive_mono f op h)

/-- A sequence of non-mutating calls only ever extends the records
buffer. -/
theorem applyOps_lines_extend {T : Type} (ops : List (Op T)) :
    ∀ f : Fetcher T, (∀ op ∈ ops, op.nonMutating) →
      f.lines <+: (applyOps f ops).lines := by
  induction ops with
  | nil => exact fun f _ => List.prefix_rfl
  | cons op ops ih =>
    intro f hnm
    exact (applyOp_lines_extend f op (hnm op (List.mem_cons_self op ops))).trans
      (ih (applyOp f op) (fun o ho => hnm o (List.mem_cons_of_mem op ho)))

/-- C4 counterexample: the records buffer does not only grow under
arbitrary call sequences.  A single `build_page_book` call with a
pass-through quality and an `order_by` override that mutates the list it
receives reorders the buffer in place (manager.py hands `order_by` the
buffer object itself), so the old buffer is not a prefix of the new one. -/
theorem c4_mutating_sequence_counterexample :
    ¬ (exFetcherB.lines <+: (applyOps exFetcherB
        [Op.buildPageBookOp exSizer ANY_QUALITY 2 exBuildPage exMutOrder
          none]).lines) := by
  decide

/-- C4 amended: under any sequence of `fetch_more` / `fetch_all` /
`build_page_book` calls, a false alive flag stays false forever, and
`fetch_more` after `all_fetched()` is a complete no-op — both
unconditionally, even for builders whose `order_by` mutates its argument;
the records buffer only grows (the old buffer is a prefix of the new one)
provided every `build_page_book` call in the sequence uses a builder
whose `order_by` does not mutate the list it receives. -/
theorem c4_state_invariants_amended {T : Type} (f : Fetcher T)
    (ops : List (Op T)) :
    (f.iter_is_alive = false → (applyOps f ops).iter_is_alive = false) ∧
    ((∀ op ∈ ops, op.nonMutating) → f.lines <+: (applyOps f ops).lines) ∧
    (all_fetched f = true → fetch_more f = (f, .normal)) :=
  ⟨applyOps_alive_mono ops f,
   applyOps_lines_extend ops f,
   fun h => fetch_more_not_alive f (by simpa [all_fetched] using h)⟩

/-- Witness for the amended C4: an exhausted fetcher worked by one of
each call, with the repository example's copy-then-sort ordering. -/
theorem c4_state_invariants_amended_witness :
    ((applyOps exFetcherDead
        [Op.fetchMoreOp, Op.fetchAllOp 3,
         Op.buildPageBookOp exSizer 0 1 exBuildPage exPureOrder
           none]).iter_is_alive = false) ∧
    (exFetcherDead.lines <+: (applyOps exFetcherDead
        [Op.fetchMoreOp, Op.fetchAllOp 3,
         Op.buildPageBookOp exSizer 0 1 exBuildPage exPureOrder
           none]).lines) ∧
    fetch_more exFetcherDead = (exFetcherDead, .normal) :=
  ⟨(c4_state_invariants_amended exFetcherDead
      [Op.fetchMoreOp, Op.fetchAllOp 3,
       Op.buildPageBookOp exSizer 0 1 exBuildPage exPureOrder none]).1 rfl,
   (c4_state_invariants_amended exFetcherDead
      [Op.fetchMoreOp, Op.fetchAllOp 3,
       Op.buildPageBookOp exSizer 0 1 exBuildPage exPureOrder none]).2.1
     (by
       intro op hop
       simp only [List.mem_cons, List.not_mem_nil, or_false] at hop
       rcases hop with rfl | rfl | rfl
       · trivial
       · trivial
       · exact fun _ _ => rfl),
   (c4_state_invariants_amended exFetcherDead
      [Op.fetchMoreOp, Op.fetchAllOp 3,
       Op.buildPageBookOp exSizer 0 1 exBuildPage exPureOrder none]).2.2
     rfl⟩

/-- C9: with a stored average of zero (no average known) `fetched_pages`
is absent; with a nonzero average it returns the floor division plus one
when the remainder is nonzero, and that value is the ceiling of
`len(records) / average`: the page capacity it gives covers all records
(`len ≤ n * avg`) and only just (`n * avg < len + avg`). -/
theorem c9_fetched_pages_ceiling {T : Type} (f : Fetcher T) :
    (f.average_page_size = 0 → fetched_pages f = none) ∧
    (f.average_page_size ≠ 0 →
      fetched_pages f = some (f.lines.length / f.average_page_size +
        (if f.lines.length % f.average_page_size ≠ 0 then 1 else 0)) ∧
      f.lines.length ≤
        (fetched_pages f).getD 0 * f.average_page_size ∧
      (fetched_pages f).getD 0 * f.average_page_size <
        f.lines.length + f.average_page_size) := by
  constructor
  · intro h
    unfold fetched_pages
    rw [if_pos h]
  · intro h
    have hpos : 0 < f.average_page_size := Nat.pos_of_ne_zero h
    have hdm := Nat.div_add_mod f.lines.length f.average_page_size
    have hlt := Nat.mod_lt f.lines.length hpos
    unfold fetched_pages
    rw [if_neg h]
    refine ⟨rfl, ?_, ?_⟩ <;>
      simp only [Option.getD_some] <;>
      by_cases hr : f.lines.length % f.average_page_size ≠ 0
    · rw [if_pos hr, Nat.add_mul, Nat.one_mul, Nat.mul_comm]
      omega
    · rw [if_neg hr, Nat.add_zero, Nat.mul_comm]
      omega
    · rw [if_pos hr, Nat.add_mul, Nat.one_mul, Nat.mul_comm]
      omega
    · rw [if_neg hr, Nat.add_zero, Nat.mul_comm]
      omega

/-- Witness for C9: a fetcher with 5 records and average 2 forecasts 3
pages; the same fetcher with average 0 forecasts nothing. -/
theorem c9_fetched_pages_ceiling_witness :
    (fetched_pages exFetcherDead = none) ∧
    (fetched_pages { exFetcherDead with average_page_size := 2 } =
        some ({ exFetcherDead with average_page_size := 2 }.lines.length / 2 +
          (if { exFetcherDead with
                average_page_size := 2 }.lines.length % 2 ≠ 0
           then 1 else 0)) ∧
      { exFetcherDead with average_page_size := 2 }.lines.length ≤
        (fetched_pages { exFetcherDead with
          average_page_size := 2 }).getD 0 * 2 ∧
      (fetched_pages { exFetcherDead with
          average_page_size := 2 }).getD 0 * 2 <
        { exFetcherDead with average_page_size := 2 }.lines.length + 2) :=
  ⟨(c9_fetched_pages_ceiling exFetcherDead).1 rfl,
   (c9_fetched_pages_ceiling
      { exFetcherDead with average_page_size := 2 }).2 (by decide)⟩

/-- C7 counterexample: with a pass-through quality (`ANY_QUALITY`, no
flag type) and a requested ordering, an `order_by` override that mutates
the list it receives in place reorders the fetcher's records buffer,
because `filter_lines_by_quality` hands `order_by` the buffer itself
rather than a copy.  Concretely: buffer `[exLineEven, exLineOdd]`, an
in-place reversing `order_by` — the buffer after the call differs from
the buffer before it. -/
theorem c7_mutating_order_by_counterexample :
    (build_page_book_mut exFetcherB exSizer ANY_QUALITY 2 exBuildPage
        exMutOrder none).1.lines ≠ exFetcherB.lines := by
  decide

/-- C7 amended: `build_page_book` itself never removes, adds, or reorders
buffer records, and whenever the builder's `order_by` leaves the content
of its argument list unchanged (e.g. it orders into a fresh copy, as the
repository's example builder does, or is the default), the fetcher's
records after the call equal the records before it.  The unamended claim
fails only through an `order_by` that mutates its argument while the
pass-through branch of the filter has handed it the buffer itself. -/
theorem c7_buffer_preserved_amended {T : Type} (f : Fetcher T)
    (page_sizer : List (Line T) → List (List (Line T)))
    (asked_quality asked_ordering : Nat)
    (build_page : List (Line T) → Option Page)
    (order_by_mut :
      List (Line T) → Nat → List (Line T) × Option (List (Line T)))
    (quality_t : Option FlagType)
    (hob : ∀ (l : List (Line T)) (o : Nat), (order_by_mut l o).1 = l) :
    (build_page_book_mut f page_sizer asked_quality asked_ordering
        build_page order_by_mut quality_t).1.lines = f.lines :=
  build_page_book_mut_lines_nonmut f page_sizer asked_quality asked_ordering
    build_page order_by_mut quality_t hob

/-- Witness for the amended C7: the example's copy-then-sort `order_by`
leaves the buffer unchanged. -/
theorem c7_buffer_preserved_amended_witness :
    (build_page_book_mut exFetcherB exSizer ANY_QUALITY 2 exBuildPage
        exPureOrder none).1.lines = exFetcherB.lines :=
  c7_buffer_preserved_amended exFetcherB exSizer ANY_QUALITY 2 exBuildPage
    exPureOrder none (fun _ _ => rfl)

end Telepager
